import Mathlib

/-!
Verification of the proyects-api repository (a Rust/axum CRUD REST API) against
its natural-language specification.  The Rust source is shallowly embedded:
pure functions become Lean functions, the SQLite store becomes explicit lists
of rows, machine integers become Nat/Int with explicit `% 2^32` where u32
overflow matters, and f64 ratings become exact rationals (only order
comparisons of stored values matter to the claims, and those are exact).
-/

namespace ProyectsApi

/-- 2^32, the modulus of Rust u32 arithmetic. -/
def u32Size : Nat := 4294967296

/-- u32::MAX, the saturation bound of Rust float-to-u32 `as` casts. -/
def u32Max : Nat := 4294967295

/-! ## Model of src/src/models/pagination.rs -/

/-- Query parameters for list endpoints (struct ListQueryParams).
Ratings are modelled as exact rationals; page and page_size are u32 values
(kept as Nat, always < 2^32 at the axum deserialization boundary). -/
structure ListQueryParams where
  search : Option String := none
  technology : Option String := none
  user_id : Option String := none
  min_rating : Option ℚ := none
  max_rating : Option ℚ := none
  language : Option String := none
  sort : Option String := none
  order : Option String := none
  page : Option Nat := none
  page_size : Option Nat := none
  deriving DecidableEq

/-- `ListQueryParams::page()`: `self.page.unwrap_or(1).max(1)`.
(Named pageNum because the Rust method shares its name with the field.) -/
def ListQueryParams.pageNum (p : ListQueryParams) : Nat :=
  max (p.page.getD 1) 1

/-- `ListQueryParams::page_size()`: `self.page_size.unwrap_or(10).clamp(1, 100)`.
Rust `v.clamp(1, 100)` equals `min (max v 1) 100` since 1 ≤ 100. -/
def ListQueryParams.pageSizeEff (p : ListQueryParams) : Nat :=
  min (max (p.page_size.getD 10) 1) 100

/-- `ListQueryParams::offset()`: `(self.page() - 1) * self.page_size()` in u32
arithmetic.  `page() ≥ 1` so the subtraction never underflows; the
multiplication is u32 and wraps modulo 2^32 in a release build (it would
panic in a debug build), hence the explicit `% u32Size`. -/
def ListQueryParams.offset (p : ListQueryParams) : Nat :=
  ((p.pageNum - 1) * p.pageSizeEff) % u32Size

/-- `ListQueryParams::sort_field()`: allow-list match, default created_at. -/
def ListQueryParams.sortField (p : ListQueryParams) : String :=
  match p.sort with
  | some "name" => "name"
  | some "created_at" => "created_at"
  | some "updated_at" => "updated_at"
  | some "rating" => "rating"
  | _ => "created_at"

/-- `ListQueryParams::sort_order()`: asc/desc match, default DESC. -/
def ListQueryParams.sortOrder (p : ListQueryParams) : String :=
  match p.order with
  | some "asc" => "ASC"
  | some "desc" => "DESC"
  | _ => "DESC"

/-- Pagination metadata (struct PaginationMetadata).  total_items is an i64 in
the source; the claims only concern total_items ≥ 0, kept as Nat here. -/
structure PaginationMetadata where
  page : Nat
  page_size : Nat
  total_items : Nat
  total_pages : Nat
  deriving DecidableEq

/-- `PaginationMetadata::new`: the source computes
`((total_items as f64) / (page_size as f64)).ceil() as u32` and then `.max(1)`.
For 0 ≤ total_items ≤ 2^53 and page_size ≥ 1 this f64 computation is exact:
both casts are exact, and rounding the quotient to nearest cannot cross an
integer boundary (a nonzero remainder keeps the quotient at least 1/page_size
above the integer below it, which exceeds the half-ulp at every magnitude
reachable with total_items ≤ 2^53), so the ceiling equals the integer ceiling
`(total_items + page_size - 1) / page_size`.  The `as u32` cast saturates at
u32::MAX (Rust float-to-int casts saturate).  The model below is therefore
exact for total_items ≤ 2^53 and page_size ≥ 1, the domain used by every
theorem about it. -/
def PaginationMetadata.new (page page_size total_items : Nat) : PaginationMetadata :=
  let total_pages := min ((total_items + page_size - 1) / page_size) u32Max
  { page := page, page_size := page_size, total_items := total_items,
    total_pages := max total_pages 1 }

/-! ## String and identifier utilities

The repository stores all uuids as TEXT (canonical lowercase hyphenated form,
produced by `Uuid::to_string`).  `uuid::Uuid::parse_str` is a dependency crate
(not under src/), modelled here on its two common accepted forms — hyphenated
8-4-4-4-12 and simple 32-hex — followed by canonicalization; the crate also
accepts braced and URN forms, which no claim depends on. -/

/-- ASCII hexadecimal digit test. -/
def isHexChar (c : Char) : Bool :=
  c.isDigit || (('a' ≤ c) && (c ≤ 'f')) || (('A' ≤ c) && (c ≤ 'F'))

/-- Hyphenated uuid form: 36 chars, hyphens at positions 8, 13, 18, 23,
hex digits elsewhere. -/
def isHyphenatedUuid (s : String) : Bool :=
  let cs := s.toList
  (cs.length == 36) &&
    cs.enum.all fun ic =>
      if ic.1 == 8 || ic.1 == 13 || ic.1 == 18 || ic.1 == 23 then ic.2 == '-'
      else isHexChar ic.2

/-- Simple uuid form: 32 hex digits, no hyphens. -/
def isSimpleUuid (s : String) : Bool :=
  let cs := s.toList
  (cs.length == 32) && cs.all isHexChar

/-- Accepted uuid forms of the modelled parser. -/
def isUuid (s : String) : Bool :=
  isHyphenatedUuid s || isSimpleUuid s

/-- Canonical form: lowercase, hyphenated (what `Uuid::to_string` emits). -/
def canonicalizeUuid (s : String) : String :=
  let cs := s.toList.map Char.toLower
  if cs.length == 32 then
    String.mk (cs.take 8 ++ '-' :: (cs.drop 8).take 4 ++ '-' :: (cs.drop 12).take 4
      ++ '-' :: (cs.drop 16).take 4 ++ '-' :: cs.drop 20)
  else
    String.mk cs

/-- Model of `Uuid::parse_str(s)` composed with `Uuid::to_string`: the
canonical string of the parsed uuid, or none on malformed input. -/
def parseUuidString (s : String) : Option String :=
  if isUuid s then some (canonicalizeUuid s) else none

/-- Lowercasing for the case-insensitive LIKE comparisons. -/
def lowerStr (s : String) : String :=
  String.mk (s.toList.map Char.toLower)

/-- Lexicographic comparison of character lists (scalar-value order, which
agrees with the byte order of the UTF-8 encodings that Rust `String::cmp` and
the SQLite BINARY collation compare). -/
def charsLe : List Char → List Char → Bool
  | [], _ => true
  | _ :: _, [] => false
  | a :: as, b :: bs => decide (a < b) || ((a == b) && charsLe as bs)

/-- `a.cmp(&b).is_le()` on strings. -/
def strLe (s t : String) : Bool :=
  charsLe s.toList t.toList

/-- Contiguous-sublist test on character lists. -/
def charsInfix (pat : List Char) : List Char → Bool
  | [] => pat.isEmpty
  | a :: t => pat.isPrefixOf (a :: t) || charsInfix pat t

/-- Model of the SQL predicate `col LIKE '%pat%'`: case-insensitive substring
containment (SQLite LIKE; the handlers build patterns by wrapping the raw
user text in percent signs, so the text is matched literally here — LIKE
metacharacters inside the user text are not modelled, and no claim uses
them). -/
def containsCI (hay pat : String) : Bool :=
  charsInfix (lowerStr pat).toList (lowerStr hay).toList

/-! ## Model of src/src/models (user.rs, technology.rs, project.rs) -/

/-- enum UserRole. -/
inductive UserRole where
  | owner
  | contributor
  | viewer
  deriving DecidableEq

/-- `UserRole::from_str`: the three known role strings; anything else is an
error (the source's error string payload is irrelevant to every claim, so the
failure is collapsed to none). -/
def UserRole.fromStr (s : String) : Option UserRole :=
  match s with
  | "owner" => some UserRole.owner
  | "contributor" => some UserRole.contributor
  | "viewer" => some UserRole.viewer
  | _ => none

/-- `UserRole::as_str`. -/
def UserRole.asStr : UserRole → String
  | UserRole.owner => "owner"
  | UserRole.contributor => "contributor"
  | UserRole.viewer => "viewer"

/-- struct Project.  Uuids are canonical strings; timestamps are integers;
the f64 rating is an exact rational (only equality and order on stored
ratings matter to the claims). -/
structure Project where
  id : String
  name : String
  description : String
  repository_url : String
  language : String
  rating : Option ℚ
  created_at : ℤ
  updated_at : ℤ
  deriving DecidableEq

/-- struct Technology. -/
structure Technology where
  id : String
  name : String
  description : Option String
  created_at : ℤ
  deriving DecidableEq

/-- struct User. -/
structure User where
  id : String
  name : String
  email : String
  created_at : ℤ
  deriving DecidableEq

/-- struct UserWithRole. -/
structure UserWithRole where
  user : User
  role : UserRole
  deriving DecidableEq

/-- struct UpdateProjectRequest, as the handler receives it after serde
deserialization: every field is a plain Option (for `Option<T>` serde maps
both an absent field and an explicit null to None). -/
structure UpdateProjectRequest where
  name : Option String := none
  description : Option String := none
  repository_url : Option String := none
  language : Option String := none
  rating : Option ℚ := none
  technology_ids : Option (List String) := none
  user_ids : Option (List String) := none
  deriving DecidableEq

/-- A JSON object field on the wire: absent, explicit null, or a value. -/
inductive JsonField (α : Type) where
  | absent
  | null
  | value (a : α)
  deriving DecidableEq

/-- The wire-level update payload, distinguishing absent from null. -/
structure UpdatePayload where
  name : JsonField String := JsonField.absent
  description : JsonField String := JsonField.absent
  repository_url : JsonField String := JsonField.absent
  language : JsonField String := JsonField.absent
  rating : JsonField ℚ := JsonField.absent
  technology_ids : JsonField (List String) := JsonField.absent
  user_ids : JsonField (List String) := JsonField.absent
  deriving DecidableEq

/-- serde's deserialization of a JSON field into `Option<T>`: both an absent
field and an explicit null become None. -/
def JsonField.decodeOption : JsonField α → Option α
  | JsonField.absent => none
  | JsonField.null => none
  | JsonField.value a => some a

/-- serde deserialization of an update payload into UpdateProjectRequest. -/
def decodeUpdateRequest (p : UpdatePayload) : UpdateProjectRequest :=
  { name := p.name.decodeOption
    description := p.description.decodeOption
    repository_url := p.repository_url.decodeOption
    language := p.language.decodeOption
    rating := p.rating.decodeOption
    technology_ids := p.technology_ids.decodeOption
    user_ids := p.user_ids.decodeOption }

/-- `Project::update`: each scalar field is overwritten only when Some; the
rating branch is `if update.rating.is_some() { self.rating = update.rating; }`;
updated_at is stamped with the current time (`now` parameter, standing for
`Utc::now()`) unconditionally. -/
def Project.update (p : Project) (update : UpdateProjectRequest) (now : ℤ) : Project :=
  { p with
    name := update.name.getD p.name
    description := update.description.getD p.description
    repository_url := update.repository_url.getD p.repository_url
    language := update.language.getD p.language
    rating := if update.rating.isSome then update.rating else p.rating
    updated_at := now }

/-! ## Model of the SQLite store

The five tables are lists of rows; uuids are TEXT columns.  Project,
Technology and User double as stored rows (their FromRow parses only matter
where a claim touches them, in get_project). -/

/-- A project_technologies association row. -/
structure ProjectTechnologyRow where
  project_id : String
  technology_id : String
  created_at : ℤ
  deriving DecidableEq

/-- A project_users association row (role stored as TEXT). -/
structure ProjectUserRow where
  project_id : String
  user_id : String
  role : String
  created_at : ℤ
  deriving DecidableEq

/-- The whole store. -/
structure Db where
  projects : List Project := []
  technologies : List Technology := []
  users : List User := []
  project_technologies : List ProjectTechnologyRow := []
  project_users : List ProjectUserRow := []
  deriving DecidableEq

/-! ## Model of list_projects (src/src/handlers/projects.rs, 89–224) -/

/-- Lines 99–101: `params.user_id.as_ref().and_then(|id| Uuid::parse_str(id).ok())
.map(|uuid| uuid.to_string())`.  A present but malformed user_id yields none —
and then the WHERE clause for the user filter is never pushed at all. -/
def userUuidStr (params : ListQueryParams) : Option String :=
  params.user_id.bind parseUuidString

/-- Search filter: `(p.name LIKE %s% OR p.description LIKE %s%)`. -/
def matchesSearch (p : Project) (pat : String) : Bool :=
  containsCI p.name pat || containsCI p.description pat

/-- Technology filter: EXISTS over project_technologies joined to
technologies with `t.name LIKE %pat%`. -/
def matchesTech (db : Db) (p : Project) (pat : String) : Bool :=
  db.project_technologies.any fun pt =>
    pt.project_id == p.id &&
      db.technologies.any fun t => t.id == pt.technology_id && containsCI t.name pat

/-- User filter: EXISTS over project_users with `pu.user_id = uuid`. -/
def matchesUser (db : Db) (p : Project) (uid : String) : Bool :=
  db.project_users.any fun pu => pu.project_id == p.id && pu.user_id == uid

/-- `p.rating >= q` in SQL: NULL compares to NULL, excluding the row. -/
def ratingGe (p : Project) (q : ℚ) : Bool :=
  match p.rating with
  | none => false
  | some r => decide (q ≤ r)

/-- `p.rating <= q` in SQL: NULL excluded. -/
def ratingLe (p : Project) (q : ℚ) : Bool :=
  match p.rating with
  | none => false
  | some r => decide (r ≤ q)

/-- The conjunction of the optional filters, exactly as pushed onto both the
COUNT and the SELECT builders (lines 113–184): a filter whose parameter is
absent contributes nothing, and the user filter is keyed on `userUuidStr`,
not on the raw `user_id`. -/
def matchesFilters (db : Db) (params : ListQueryParams) (p : Project) : Bool :=
  (match params.search with
   | none => true
   | some s => matchesSearch p s) &&
  (match params.technology with
   | none => true
   | some s => matchesTech db p s) &&
  (match userUuidStr params with
   | none => true
   | some u => matchesUser db p u) &&
  (match params.min_rating with
   | none => true
   | some q => ratingGe p q) &&
  (match params.max_rating with
   | none => true
   | some q => ratingLe p q) &&
  (match params.language with
   | none => true
   | some s => containsCI p.language s)

/-- The COUNT query result (lines 186–191). -/
def countProjects (db : Db) (params : ListQueryParams) : Nat :=
  (db.projects.filter fun p => matchesFilters db params p).length

/-- `none` sorts below every value (SQLite NULLs are smallest). -/
def optRatingLe : Option ℚ → Option ℚ → Bool
  | none, _ => true
  | some _, none => false
  | some a, some b => decide (a ≤ b)

/-- The ORDER BY key comparison for one of the allow-listed sort fields. -/
def sortKeyLe (field : String) (a b : Project) : Bool :=
  match field with
  | "name" => strLe a.name b.name
  | "updated_at" => decide (a.updated_at ≤ b.updated_at)
  | "rating" => optRatingLe a.rating b.rating
  | _ => decide (a.created_at ≤ b.created_at)

/-- `ORDER BY p.{field} {order}`: DESC flips the comparison.  SQLite does not
promise a stable or deterministic order among ties; the model fixes one
linearization (no claim depends on tie order of the listing). -/
def projOrderBy (field ord : String) (a b : Project) : Bool :=
  if ord == "ASC" then sortKeyLe field a b else sortKeyLe field b a

/-- The SELECT query result (lines 193–209): filters, then ORDER BY, then
LIMIT page_size OFFSET offset. -/
def listProjectsPage (db : Db) (params : ListQueryParams) : List Project :=
  let filtered := db.projects.filter fun p => matchesFilters db params p
  let sorted := List.insertionSort
    (fun a b => projOrderBy params.sortField params.sortOrder a b = true) filtered
  (sorted.drop params.offset).take params.pageSizeEff

/-- The handler's 200 response (lines 218–223): the page plus
`PaginationMetadata::new(page, page_size, total_items)`. -/
def listProjects (db : Db) (params : ListQueryParams) :
    List Project × PaginationMetadata :=
  (listProjectsPage db params,
    PaginationMetadata.new params.pageNum params.pageSizeEff (countProjects db params))

/-! ## Model of src/src/middleware/rate_limit.rs -/

/-- Client identity (std::net::IpAddr), kept abstract as its string form. -/
abbrev IpAddr := String

/-- struct RequestTracker. -/
structure RequestTracker where
  requests : List ℤ
  last_request : ℤ
  deriving DecidableEq

/-- struct RateLimiterState; the HashMap is an association list with distinct
keys (well-formedness hypotheses carry the distinctness where needed). -/
structure RateLimiterState where
  requests : List (IpAddr × RequestTracker)
  last_cleanup : ℤ
  deriving DecidableEq

/-- struct RateLimiter (configuration only; the shared state is passed
explicitly).  per_second is marked dead_code in the source. -/
structure RateLimiter where
  per_second : Nat
  burst_size : Nat
  deriving DecidableEq

/-- One second, in the Instant resolution (nanoseconds). -/
def secNs : ℤ := 1000000000

/-- Sixty seconds in nanoseconds. -/
def minuteNs : ℤ := 60000000000

/-- HashMap get: first (only) binding for the key. -/
def findTracker (ip : IpAddr) : List (IpAddr × RequestTracker) → Option RequestTracker
  | [] => none
  | e :: es => if e.1 = ip then some e.2 else findTracker ip es

/-- HashMap insert-or-replace (the net effect of `entry(ip)` plus the
in-place mutations of the tracker). -/
def setTracker (ip : IpAddr) (tr : RequestTracker) :
    List (IpAddr × RequestTracker) → List (IpAddr × RequestTracker)
  | [] => [(ip, tr)]
  | e :: es => if e.1 = ip then (ip, tr) :: es else e :: setTracker ip tr es

/-- Lines 57–62: every 60 seconds, drop trackers idle for at least 60
seconds. -/
def cleanupSweep (now : ℤ) (st : RateLimiterState) : RateLimiterState :=
  if minuteNs < now - st.last_cleanup then
    { requests := st.requests.filter fun e => now - e.2.last_request < minuteNs
      last_cleanup := now }
  else st

/-- `RateLimiter::check_rate_limit` (lines 53–84): sweep, fetch-or-create the
ip's tracker, retain only timestamps strictly inside the trailing one-second
window, then admit and record iff the retained count is below burst_size.
The retained list is written back in both branches (the Rust mutations are in
place through the entry); last_request is only touched on admission. -/
def checkRateLimit (rl : RateLimiter) (ip : IpAddr) (now : ℤ)
    (st : RateLimiterState) : Bool × RateLimiterState :=
  let st1 := cleanupSweep now st
  let one_second_ago := now - secNs
  let tracker := (findTracker ip st1.requests).getD { requests := [], last_request := now }
  let kept := tracker.requests.filter fun t => one_second_ago < t
  if kept.length < rl.burst_size then
    let newTracker : RequestTracker := { requests := kept ++ [now], last_request := now }
    (true, { st1 with requests := setTracker ip newTracker st1.requests })
  else
    let newTracker : RequestTracker := { requests := kept, last_request := tracker.last_request }
    (false, { st1 with requests := setTracker ip newTracker st1.requests })

/-- The number of recorded requests from `ip` lying in the trailing
one-second window (now − 1s, now] — the quantity the claim speaks about,
measured on the state as given, before any sweep. -/
def windowCount (ip : IpAddr) (now : ℤ) (st : RateLimiterState) : Nat :=
  (((findTracker ip st.requests).elim [] RequestTracker.requests).filter
    fun t => now - secNs < t).length

/-! ## Model of get_project (src/src/handlers/projects.rs, 251–354) -/

/-- struct ProjectWithRelationsRow: one row of the LEFT-JOIN query. -/
structure JoinRow where
  project_id : String
  project_name : String
  project_description : String
  repository_url : String
  language : String
  rating : Option ℚ
  project_created_at : ℤ
  project_updated_at : ℤ
  tech_id : Option String
  tech_name : Option String
  tech_description : Option String
  tech_created_at : Option ℤ
  user_id : Option String
  user_name : Option String
  user_email : Option String
  user_created_at : Option ℤ
  role : Option String
  deriving DecidableEq

/-- The technology-extraction guard of the collapse loop (lines 308–317):
non-null tech_id that parses as a uuid, non-null name and created_at. -/
def rowTech (row : JoinRow) : Option Technology :=
  match row.tech_id with
  | none => none
  | some tid =>
    match parseUuidString tid with
    | none => none
    | some tidc =>
      match row.tech_name, row.tech_created_at with
      | some nm, some ca =>
        some { id := tidc, name := nm, description := row.tech_description,
               created_at := ca }
      | _, _ => none

/-- The user-extraction guard (lines 320–334): non-null user_id that parses,
non-null name, email, created_at and role, and the role string must parse. -/
def rowUser (row : JoinRow) : Option UserWithRole :=
  match row.user_id with
  | none => none
  | some uid =>
    match parseUuidString uid with
    | none => none
    | some uidc =>
      match row.user_name, row.user_email, row.user_created_at, row.role with
      | some nm, some em, some ca, some rs =>
        match UserRole.fromStr rs with
        | none => none
        | some role =>
          some { user := { id := uidc, name := nm, email := em, created_at := ca },
                 role := role }
      | _, _, _, _ => none

/-- `map.entry(k).or_insert_with(v)` on a map carried as an insertion-ordered
association sequence: first occurrence wins, later duplicates are dropped. -/
def insertFirstWins (key : α → String) (acc : List α) (x : α) : List α :=
  if acc.any fun y => key y = key x then acc else acc ++ [x]

/-- One iteration of the collapse loop for one of the two maps: extract the
payload if the row's guard passes, and entry-or-insert it. -/
def collapseStep (f : JoinRow → Option β) (key : β → String)
    (acc : List β) (row : JoinRow) : List β :=
  match f row with
  | none => acc
  | some t => insertFirstWins key acc t

/-- The technologies_map content after the collapse loop, in insertion
order. -/
def techsInOrder (rows : List JoinRow) : List Technology :=
  rows.foldl (collapseStep rowTech Technology.id) []

/-- The users_map content after the collapse loop, in insertion order. -/
def usersInOrder (rows : List JoinRow) : List UserWithRole :=
  rows.foldl (collapseStep rowUser (fun w => w.user.id)) []

/-- Keyed deduplication keeping the first occurrence of each key — the
specification-side description of the dedup policy, compared against the
foldl/entry formulation above. -/
def firstWinsDedup (key : α → String) : List α → List α
  | [] => []
  | x :: xs => x :: firstWinsDedup key (xs.filter fun y => !(key y = key x : Bool))
termination_by l => l.length
decreasing_by
  have h := List.length_filter_le (fun y => !(key y = key x : Bool)) xs
  simp only [List.length_cons]
  omega

/-- The sort comparator `a.name.cmp(&b.name)` as a relation. -/
def techLe (a b : Technology) : Prop := strLe a.name b.name = true

instance : DecidableRel techLe := fun _ _ => instDecidableEqBool _ _

/-- The sort comparator `a.user.name.cmp(&b.user.name)` as a relation. -/
def userLe (a b : UserWithRole) : Prop := strLe a.user.name b.user.name = true

instance : DecidableRel userLe := fun _ _ => instDecidableEqBool _ _

/-- `technologies.sort_by(|a, b| a.name.cmp(&b.name))`: a stable sort, modelled
by insertion sort (which is stable for a ≤-style comparator: an element is
inserted after the equal elements already placed, preserving input order among
equal names — matching Rust's stable `sort_by`). -/
def sortTechs (l : List Technology) : List Technology :=
  List.insertionSort techLe l

/-- `users.sort_by(|a, b| a.user.name.cmp(&b.user.name))`, stable. -/
def sortUsers (l : List UserWithRole) : List UserWithRole :=
  List.insertionSort userLe l

/-- NULLs-first comparison of nullable name columns (SQLite ORDER BY ASC). -/
def optNameLe (a b : Option String) : Bool :=
  match a, b with
  | none, _ => true
  | some _, none => false
  | some x, some y => strLe x y

/-- Strict version of the above. -/
def optNameLt (a b : Option String) : Bool :=
  optNameLe a b && !(optNameLe b a)

/-- `ORDER BY t.name ASC, u.name ASC` as a row comparison (lexicographic on
the two nullable name columns).  SQLite fixes no order among full ties; the
model linearizes them, and no theorem below depends on tie order of rows. -/
def joinRowLe (a b : JoinRow) : Prop :=
  (optNameLt a.tech_name b.tech_name ||
    (!(optNameLt b.tech_name a.tech_name) && optNameLe a.user_name b.user_name)) = true

instance : DecidableRel joinRowLe := fun _ _ => instDecidableEqBool _ _

/-- The ORDER BY applied to the joined rows. -/
def sortJoinRows (l : List JoinRow) : List JoinRow :=
  List.insertionSort joinRowLe l

/-- The row a project contributes when both LEFT JOIN chains find nothing:
all association columns NULL. -/
def nullRow (p : Project) : JoinRow :=
  { project_id := p.id, project_name := p.name, project_description := p.description,
    repository_url := p.repository_url, language := p.language, rating := p.rating,
    project_created_at := p.created_at, project_updated_at := p.updated_at,
    tech_id := none, tech_name := none, tech_description := none, tech_created_at := none,
    user_id := none, user_name := none, user_email := none, user_created_at := none,
    role := none }

/-- The rows one matched project contributes to the join: the left-associative
chain `p LEFT JOIN pt LEFT JOIN t LEFT JOIN pu LEFT JOIN u` — matching pt
rows (or one NULL extension), for each the matching t row (NULL when the pt
side is NULL or the technology is missing), crossed with the same for
pu/u. -/
def projectJoinRows (db : Db) (p : Project) : List JoinRow :=
  let pts := db.project_technologies.filter fun pt => pt.project_id == p.id
  let ptOpts : List (Option ProjectTechnologyRow) :=
    if pts.isEmpty then [none] else pts.map some
  ptOpts.flatMap fun ptOpt =>
    let ts : List (Option Technology) :=
      match ptOpt with
      | none => [none]
      | some pt =>
        let m := db.technologies.filter fun t => t.id == pt.technology_id
        if m.isEmpty then [none] else m.map some
    ts.flatMap fun tOpt =>
      let pus := db.project_users.filter fun pu => pu.project_id == p.id
      let puOpts : List (Option ProjectUserRow) :=
        if pus.isEmpty then [none] else pus.map some
      puOpts.flatMap fun puOpt =>
        let us : List (Option User) :=
          match puOpt with
          | none => [none]
          | some pu =>
            let m := db.users.filter fun u => u.id == pu.user_id
            if m.isEmpty then [none] else m.map some
        us.map fun uOpt =>
          { project_id := p.id, project_name := p.name,
            project_description := p.description, repository_url := p.repository_url,
            language := p.language, rating := p.rating,
            project_created_at := p.created_at, project_updated_at := p.updated_at,
            tech_id := tOpt.map Technology.id, tech_name := tOpt.map Technology.name,
            tech_description := tOpt.bind Technology.description,
            tech_created_at := tOpt.map Technology.created_at,
            user_id := uOpt.map User.id, user_name := uOpt.map User.name,
            user_email := uOpt.map User.email, user_created_at := uOpt.map User.created_at,
            role := puOpt.map ProjectUserRow.role }

/-- All rows of the join for `WHERE p.id = ?`, before ordering. -/
def joinRowsRaw (db : Db) (pid : String) : List JoinRow :=
  (db.projects.filter fun p => p.id == pid).flatMap (projectJoinRows db)

/-- The get_project query result (lines 260–279). -/
def joinRows (db : Db) (pid : String) : List JoinRow :=
  sortJoinRows (joinRowsRaw db pid)

/-- enum AppError (src/src/error/mod.rs), restricted to the payloads the
claims observe. -/
inductive AppError where
  | projectNotFound (id : String)
  | technologyNotFound (id : String)
  | userNotFound (id : String)
  | validationError
  | databaseError
  | internalError (msg : String)
  deriving DecidableEq

instance [DecidableEq ε] [DecidableEq α] : DecidableEq (Except ε α) := fun x y =>
  match x, y with
  | Except.error a, Except.error b =>
    if h : a = b then isTrue (by rw [h])
    else isFalse (by intro hh; cases hh; exact h rfl)
  | Except.ok a, Except.ok b =>
    if h : a = b then isTrue (by rw [h])
    else isFalse (by intro hh; cases hh; exact h rfl)
  | Except.error a, Except.ok b => isFalse (by intro hh; cases hh)
  | Except.ok a, Except.error b => isFalse (by intro hh; cases hh)

/-- struct ProjectWithRelations. -/
structure ProjectWithRelations where
  project : Project
  technologies : List Technology
  users : List UserWithRole
  deriving DecidableEq

/-- The get_project handler (lines 251–354): not-found on zero rows, project
scalars from the first row (with the uuid re-parse that can only fail on a
corrupt store), then the collapse maps materialized and sorted by name.
The HashMap materialization order before the final sort is arbitrary in the
source; this definition fixes it to insertion order, and every theorem about
getProject is invariant under that choice (they concern only the not-found
condition and emptiness of the result lists); the tie-order analysis of the
collapse quantifies over the materialization explicitly instead. -/
def getProject (db : Db) (pid : String) : Except AppError ProjectWithRelations :=
  match joinRows db pid with
  | [] => Except.error (AppError.projectNotFound pid)
  | first :: rest =>
    match parseUuidString first.project_id with
    | none => Except.error (AppError.internalError "Invalid project UUID")
    | some pidc =>
      let project : Project :=
        { id := pidc, name := first.project_name,
          description := first.project_description,
          repository_url := first.repository_url, language := first.language,
          rating := first.rating, created_at := first.project_created_at,
          updated_at := first.project_updated_at }
      Except.ok
        { project := project
          technologies := sortTechs (techsInOrder (first :: rest))
          users := sortUsers (usersInOrder (first :: rest)) }

/-! ## Model of create_project and update_project
(src/src/handlers/projects.rs, 391–512 and 556–715) -/

/-- struct CreateProjectRequest. -/
structure CreateProjectRequest where
  name : String
  description : String
  repository_url : String
  language : String
  rating : Option ℚ := none
  technology_ids : Option (List String) := none
  user_ids : Option (List String) := none
  deriving DecidableEq

/-- Modelled from the spec: repository_url must parse as a URL (the url crate
backing the validator's url check is a dependency, not under src/).
Approximated as an alphabetic scheme followed by "://" and a non-empty
remainder; every theorem that touches validation either hypothesizes the
validation outcome or uses URLs on which this model and the crate agree. -/
def urlTail : List Char → Bool
  | ':' :: '/' :: '/' :: rest => !rest.isEmpty
  | c :: cs => c.isAlpha && urlTail cs
  | [] => false

/-- See `urlTail`. -/
def isUrlLike (s : String) : Bool :=
  match s.toList with
  | [] => false
  | c :: cs => c.isAlpha && urlTail cs

/-- The validator derive on CreateProjectRequest: length bounds in characters,
url well-formedness, rating range. -/
def validateCreate (r : CreateProjectRequest) : Bool :=
  (decide (1 ≤ r.name.length) && decide (r.name.length ≤ 255)) &&
  (decide (1 ≤ r.description.length) && decide (r.description.length ≤ 2000)) &&
  isUrlLike r.repository_url &&
  (decide (1 ≤ r.language.length) && decide (r.language.length ≤ 100)) &&
  (match r.rating with
   | none => true
   | some q => decide (0 ≤ q) && decide (q ≤ 5))

/-- The validator derive on UpdateProjectRequest: the same bounds, applied
only to present fields. -/
def validateUpdate (u : UpdateProjectRequest) : Bool :=
  (match u.name with
   | none => true
   | some s => decide (1 ≤ s.length) && decide (s.length ≤ 255)) &&
  (match u.description with
   | none => true
   | some s => decide (1 ≤ s.length) && decide (s.length ≤ 2000)) &&
  (match u.repository_url with
   | none => true
   | some s => isUrlLike s) &&
  (match u.language with
   | none => true
   | some s => decide (1 ≤ s.length) && decide (s.length ≤ 100)) &&
  (match u.rating with
   | none => true
   | some q => decide (0 ≤ q) && decide (q ≤ 5))

/-- `SELECT 1 FROM technologies WHERE id = ?` as an existence probe. -/
def existsTech (db : Db) (tid : String) : Bool :=
  db.technologies.any fun t => t.id == tid

/-- `SELECT 1 FROM users WHERE id = ?` as an existence probe. -/
def existsUser (db : Db) (uid : String) : Bool :=
  db.users.any fun u => u.id == uid

/-- The validation loops of both handlers: walk the id list in order and
return the first id whose existence probe fails. -/
def firstMissing (p : String → Bool) : List String → Option String
  | [] => none
  | x :: xs => if p x then firstMissing p xs else some x

/-- The role assigned at position idx of a supplied user id list:
`if idx == 0 { Owner } else { Contributor }`. -/
def roleFor (idx : Nat) : UserRole :=
  if idx = 0 then UserRole.owner else UserRole.contributor

/-- The create_project handler's store effect (lines 391–512): validate the
payload, existence-check every technology id in order, then every user id in
order — the first missing id aborts with the not-found error naming it, and
the error return leaves the store untouched (all inserts come after both
loops) — then insert the project row, the technology association rows in
input order, and the user association rows in input order with their
positional roles.  pid stands for the generated Uuid::new_v4 and now for
Utc::now (the handler's two timestamp reads collapse to one instant). -/
def createProject (db : Db) (req : CreateProjectRequest) (pid : String)
    (now : ℤ) : Except AppError Db :=
  if !(validateCreate req) then Except.error AppError.validationError
  else
    match firstMissing (existsTech db) (req.technology_ids.getD []) with
    | some tid => Except.error (AppError.technologyNotFound tid)
    | none =>
      match firstMissing (existsUser db) (req.user_ids.getD []) with
      | some uid => Except.error (AppError.userNotFound uid)
      | none =>
        let project : Project :=
          { id := pid, name := req.name, description := req.description,
            repository_url := req.repository_url, language := req.language,
            rating := req.rating, created_at := now, updated_at := now }
        let db1 : Db := { db with projects := db.projects ++ [project] }
        let newPts := db1.project_technologies ++ (req.technology_ids.getD []).map
          fun tid => ProjectTechnologyRow.mk pid tid now
        let db2 : Db := { db1 with project_technologies := newPts }
        let newPus := db2.project_users ++ (req.user_ids.getD []).enum.map
          fun iu => ProjectUserRow.mk pid iu.2 (roleFor iu.1).asStr now
        let db3 : Db := { db2 with project_users := newPus }
        Except.ok db3

/-- The update_project handler's store effect (lines 556–715): validate, the
same two existence-check loops, fetch the project row (not-found if absent;
the FromRow uuid re-parse can only fail on a corrupt store and is not
modelled), apply Project::update, write the row back, and replace the
association tables wholesale for each list that is present — delete every
row of the project then insert the supplied ids in order (users with
positional roles).  An absent list leaves its table untouched. -/
def updateProject (db : Db) (pid : String) (upd : UpdateProjectRequest)
    (now : ℤ) : Except AppError Db :=
  if !(validateUpdate upd) then Except.error AppError.validationError
  else
    match firstMissing (existsTech db) (upd.technology_ids.getD []) with
    | some tid => Except.error (AppError.technologyNotFound tid)
    | none =>
      match firstMissing (existsUser db) (upd.user_ids.getD []) with
      | some uid => Except.error (AppError.userNotFound uid)
      | none =>
        match db.projects.find? (fun p => p.id == pid) with
        | none => Except.error (AppError.projectNotFound pid)
        | some project =>
          let project2 := project.update upd now
          let newProjects := db.projects.map fun p => if p.id == pid then project2 else p
          let db1 : Db := { db with projects := newProjects }
          let db2 : Db :=
            match upd.technology_ids with
            | none => db1
            | some tids =>
              let newPts := db1.project_technologies.filter
                  (fun pt => !(pt.project_id == pid))
                ++ tids.map fun tid => ProjectTechnologyRow.mk pid tid now
              { db1 with project_technologies := newPts }
          let db3 : Db :=
            match upd.user_ids with
            | none => db2
            | some uids =>
              let newPus := db2.project_users.filter
                  (fun pu => !(pu.project_id == pid))
                ++ uids.enum.map
                  fun iu => ProjectUserRow.mk pid iu.2 (roleFor iu.1).asStr now
              { db2 with project_users := newPus }
          Except.ok db3

/-! ## Concrete instances used by the example-level theorems -/

/-- A stored project used to exercise `Project::update`. -/
def c7Project : Project :=
  { id := "00000000-0000-0000-0000-000000000001"
    name := "Original"
    description := "Original description"
    repository_url := "https://github.com/original/repo"
    language := "Rust"
    rating := some 4
    created_at := 0
    updated_at := 0 }

/-- A payload whose rating field is present but null. -/
def c7NullRatingPayload : UpdatePayload :=
  { rating := JsonField.null }

/-- A payload with an explicit new rating and everything else absent. -/
def c7RatingThreePayload : UpdatePayload :=
  { rating := JsonField.value 3 }

/-- A project visible to every list filter. -/
def c2Project : Project :=
  { id := "11111111-1111-1111-1111-111111111111"
    name := "Alpha"
    description := "First project"
    repository_url := "https://example.com/alpha"
    language := "Rust"
    rating := some 4
    created_at := 0
    updated_at := 0 }

/-- A store holding exactly that one project and no associations. -/
def c2Db : Db :=
  { projects := [c2Project] }

/-- A list request whose user_id is present but malformed. -/
def c2Params : ListQueryParams :=
  { user_id := some "not-a-uuid" }

/-- A list request with a different malformed user_id, for the witness. -/
def c2WitnessParams : ListQueryParams :=
  { user_id := some "zzz" }

/-- A technology named X. -/
def c1Tech1 : Technology :=
  { id := "00000000-0000-0000-0000-0000000000aa", name := "X", description := none,
    created_at := 0 }

/-- A second, distinct technology with the same name X. -/
def c1Tech2 : Technology :=
  { id := "00000000-0000-0000-0000-0000000000bb", name := "X", description := none,
    created_at := 0 }

/-- A joined row carrying the given technology and no user columns. -/
def c1Row (t : Technology) : JoinRow :=
  { project_id := "22222222-2222-2222-2222-222222222222", project_name := "P",
    project_description := "D", repository_url := "https://example.com/p",
    language := "Rust", rating := none, project_created_at := 0, project_updated_at := 0,
    tech_id := some t.id, tech_name := some t.name, tech_description := t.description,
    tech_created_at := some t.created_at,
    user_id := none, user_name := none, user_email := none, user_created_at := none,
    role := none }

/-- A stored project with no association rows. -/
def c3Project : Project :=
  { id := "33333333-3333-3333-3333-333333333333"
    name := "Bare"
    description := "No relations"
    repository_url := "https://example.com/bare"
    language := "Rust"
    rating := none
    created_at := 0
    updated_at := 0 }

/-- A store holding only that bare project. -/
def c3Db : Db :=
  { projects := [c3Project] }

/-- A stored project for the write-path examples. -/
def c6Project : Project :=
  { id := "p1", name := "N", description := "D",
    repository_url := "https://example.com/r", language := "L", rating := none,
    created_at := 0, updated_at := 0 }

/-- A stored technology t1. -/
def c6Tech : Technology :=
  { id := "t1", name := "T", description := none, created_at := 0 }

/-- A store with one project carrying one old technology association. -/
def c6Db : Db :=
  { projects := [c6Project], technologies := [c6Tech], users := [],
    project_technologies := [ProjectTechnologyRow.mk "p1" "t0" 0],
    project_users := [] }

/-- An update replacing the technology list with [t1], user list absent. -/
def c6Upd : UpdateProjectRequest :=
  { technology_ids := some ["t1"] }

/-- The expected store after that update at time 7. -/
def c6DbAfter : Db :=
  { projects := [{ c6Project with updated_at := 7 }], technologies := [c6Tech],
    users := [], project_technologies := [ProjectTechnologyRow.mk "p1" "t1" 7],
    project_users := [] }

/-- A store knowing only technology t1. -/
def c8Db : Db :=
  { technologies := [c6Tech] }

/-- A valid create request referencing t1 (exists), then t2 (missing), and a
missing user u9 — the abort must name t2, not u9. -/
def c8Req : CreateProjectRequest :=
  { name := "N", description := "D", repository_url := "https://example.com/r",
    language := "L", rating := none, technology_ids := some ["t1", "t2"],
    user_ids := some ["u9"] }

/-- A stored user A. -/
def c9User1 : User :=
  { id := "u1", name := "A", email := "a@example.com", created_at := 0 }

/-- A stored user B. -/
def c9User2 : User :=
  { id := "u2", name := "B", email := "b@example.com", created_at := 0 }

/-- A store with the two users. -/
def c9Db : Db :=
  { users := [c9User1, c9User2] }

/-- A valid create request listing u1 then u2. -/
def c9Req : CreateProjectRequest :=
  { name := "N", description := "D", repository_url := "https://example.com/r",
    language := "L", rating := none, user_ids := some ["u1", "u2"] }

/-- The expected store after that create at time 3 with generated id p9. -/
def c9DbAfter : Db :=
  { projects := [Project.mk "p9" "N" "D" "https://example.com/r" "L" none 3 3],
    technologies := [], users := [c9User1, c9User2], project_technologies := [],
    project_users := [ProjectUserRow.mk "p9" "u1" "owner" 3,
      ProjectUserRow.mk "p9" "u2" "contributor" 3] }

/-- A rate limiter allowing bursts of 2. -/
def c10Limiter : RateLimiter :=
  { per_second := 5, burst_size := 2 }

/-- A limiter state with one prior request from 1.2.3.4 at t = 100ns. -/
def c10State : RateLimiterState :=
  { requests := [("1.2.3.4", { requests := [100], last_request := 100 })]
    last_cleanup := 0 }

end ProyectsApi

namespace ProyectsApi

/-! ## Claims C4 and C5 -/

/-- C4 counterexample: at total_items = 2^33 = 8589934592 and page_size = 1 the
code's `as u32` cast saturates, so total_pages is u32::MAX = 4294967295, not
max(1, ceil(8589934592 / 1)) = 8589934592 as the claim requires. -/
theorem c4_counterexample :
    (PaginationMetadata.new 1 1 8589934592).total_pages = 4294967295 ∧
    (4294967295 : Nat) ≠ max 1 ((8589934592 + 1 - 1) / 1) := by
  constructor
  · rfl
  · decide

/-- C4 (amended): for page_size ∈ [1,100] and total_items ≤ 2^53 (the domain
on which the source's f64 computation is exact), the reported total_pages
equals max(1, ceil(total_items / page_size)) whenever that ceiling fits in
u32 — in particular for every total_items ≤ u32::MAX, including
total_items = 0; when the ceiling exceeds u32::MAX the saturating `as u32`
cast caps total_pages at exactly 4294967295. -/
theorem c4_total_pages (page page_size total_items : Nat)
    (h1 : 1 ≤ page_size) (h2 : page_size ≤ 100)
    (h3 : total_items ≤ 2 ^ 53) :
    ((total_items + page_size - 1) / page_size ≤ u32Max →
      (PaginationMetadata.new page page_size total_items).total_pages
        = max 1 ((total_items + page_size - 1) / page_size)) ∧
    (u32Max < (total_items + page_size - 1) / page_size →
      (PaginationMetadata.new page page_size total_items).total_pages = u32Max) ∧
    (total_items ≤ u32Max →
      (PaginationMetadata.new page page_size total_items).total_pages
        = max 1 ((total_items + page_size - 1) / page_size)) := by
  have hfit : (total_items + page_size - 1) / page_size ≤ u32Max →
      (PaginationMetadata.new page page_size total_items).total_pages
        = max 1 ((total_items + page_size - 1) / page_size) := by
    intro hle
    simp only [PaginationMetadata.new, u32Max] at hle ⊢
    omega
  refine ⟨hfit, ?_, ?_⟩
  · intro hlt
    simp only [PaginationMetadata.new, u32Max] at hlt ⊢
    omega
  · intro hle
    have hps : 0 < page_size := h1
    have hdiv : (total_items + page_size - 1) / page_size ≤ max total_items 1 := by
      rw [Nat.div_le_iff_le_mul_add_pred hps]
      have hmul : total_items ≤ page_size * max total_items 1 := by
        calc total_items ≤ max total_items 1 := le_max_left _ _
          _ = 1 * max total_items 1 := (one_mul _).symm
          _ ≤ page_size * max total_items 1 := Nat.mul_le_mul_right _ h1
      omega
    have hmax : max total_items 1 ≤ u32Max := by
      have h1u : (1 : Nat) ≤ u32Max := by decide
      omega
    exact hfit (le_trans hdiv hmax)

/-- C4 witness: the amended theorem applied at page 1, page_size 10,
total_items 45, giving 5 pages through the fits-in-u32 branch. -/
theorem c4_witness :
    (1 ≤ 10 ∧ 10 ≤ 100 ∧ 45 ≤ 2 ^ 53 ∧ 45 ≤ u32Max) ∧
    (PaginationMetadata.new 1 10 45).total_pages = max 1 ((45 + 10 - 1) / 10) :=
  ⟨⟨by decide, by decide, by decide, by decide⟩,
   (c4_total_pages 1 10 45 (by decide) (by decide) (by decide)).2.2 (by decide)⟩

/-- C5 counterexample: with page = 4294967295 and page_size = 100 the u32
multiplication `(page() - 1) * page_size()` overflows and wraps, so the offset
is 4294967096 rather than the mathematical product 429496729400 that the claim
requires (in a debug build the same input panics instead). -/
theorem c5_counterexample :
    (ListQueryParams.pageNum { page := some 4294967295, page_size := some 100 }
        = 4294967295) ∧
    (ListQueryParams.pageSizeEff { page := some 4294967295, page_size := some 100 }
        = 100) ∧
    (ListQueryParams.offset { page := some 4294967295, page_size := some 100 }
        = 4294967096) ∧
    (4294967096 : Nat) ≠ (4294967295 - 1) * 100 := by
  refine ⟨rfl, rfl, rfl, by decide⟩

/-- C5 (amended): the effective page is the supplied page floored at 1
(default 1), the effective page size is the supplied page_size clamped to
[1,100] (default 10; above 100 yields 100; 0 yields 1), and the offset equals
((effective page − 1) × effective page size) mod 2^32, which is the exact
mathematical product whenever that product is below 2^32. -/
theorem c5_effective_params (p : ListQueryParams) :
    (p.page = none → p.pageNum = 1) ∧
    (∀ n, p.page = some n → p.pageNum = max n 1) ∧
    (p.page_size = none → p.pageSizeEff = 10) ∧
    (∀ n, p.page_size = some n → 100 < n → p.pageSizeEff = 100) ∧
    (p.page_size = some 0 → p.pageSizeEff = 1) ∧
    (∀ n, p.page_size = some n → 1 ≤ n → n ≤ 100 → p.pageSizeEff = n) ∧
    (p.offset = ((p.pageNum - 1) * p.pageSizeEff) % u32Size) ∧
    ((p.pageNum - 1) * p.pageSizeEff < u32Size →
      p.offset = (p.pageNum - 1) * p.pageSizeEff) := by
  refine ⟨?_, ?_, ?_, ?_, ?_, ?_, rfl, ?_⟩
  · intro h; simp [ListQueryParams.pageNum, h]
  · intro n h; simp [ListQueryParams.pageNum, h]
  · intro h; simp [ListQueryParams.pageSizeEff, h]
  · intro n h hn; simp [ListQueryParams.pageSizeEff, h]; omega
  · intro h; simp [ListQueryParams.pageSizeEff, h]
  · intro n h h1 h100; simp [ListQueryParams.pageSizeEff, h]; omega
  · intro h; simp [ListQueryParams.offset, Nat.mod_eq_of_lt h]

/-- C5 witness: the amended theorem applied at page = 3, page_size = 20,
where the offset is the exact product 40. -/
theorem c5_witness :
    (ListQueryParams.pageNum { page := some 3, page_size := some 20 } - 1) *
        ListQueryParams.pageSizeEff { page := some 3, page_size := some 20 } < u32Size ∧
    ListQueryParams.offset { page := some 3, page_size := some 20 }
      = (ListQueryParams.pageNum { page := some 3, page_size := some 20 } - 1) *
        ListQueryParams.pageSizeEff { page := some 3, page_size := some 20 } :=
  ⟨by decide,
   (c5_effective_params { page := some 3, page_size := some 20 }).2.2.2.2.2.2.2
     (by decide)⟩

/-! ## Claim C7 -/

/-- C7 counterexample: a payload carrying rating present-but-null does not
clear the stored rating.  serde reads `Option<f64>` null as None, so
`update.rating.is_some()` is false and the prior rating (4) is retained,
where the claim requires it to be cleared to null. -/
theorem c7_counterexample :
    c7NullRatingPayload.rating = JsonField.null ∧
    (c7Project.update (decodeUpdateRequest c7NullRatingPayload) 5).rating = some 4 ∧
    some (4 : ℚ) ≠ (none : Option ℚ) := by
  refine ⟨rfl, rfl, by decide⟩

/-- C7 (amended): on update every scalar field absent from the payload retains
its prior value; an explicitly-present non-null rating overwrites the stored
rating; a rating that is present but null is indistinguishable from an absent
one after deserialization and so retains the prior value (it does not clear
it); and updated_at is set to the current time on every update. -/
theorem c7_partial_update (p : Project) (payload : UpdatePayload) (now : ℤ) :
    (payload.name = JsonField.absent →
      (p.update (decodeUpdateRequest payload) now).name = p.name) ∧
    (payload.description = JsonField.absent →
      (p.update (decodeUpdateRequest payload) now).description = p.description) ∧
    (payload.repository_url = JsonField.absent →
      (p.update (decodeUpdateRequest payload) now).repository_url = p.repository_url) ∧
    (payload.language = JsonField.absent →
      (p.update (decodeUpdateRequest payload) now).language = p.language) ∧
    (∀ r, payload.rating = JsonField.value r →
      (p.update (decodeUpdateRequest payload) now).rating = some r) ∧
    (payload.rating = JsonField.null →
      (p.update (decodeUpdateRequest payload) now).rating = p.rating) ∧
    (payload.rating = JsonField.absent →
      (p.update (decodeUpdateRequest payload) now).rating = p.rating) ∧
    (p.update (decodeUpdateRequest payload) now).updated_at = now ∧
    (p.update (decodeUpdateRequest payload) now).created_at = p.created_at ∧
    (p.update (decodeUpdateRequest payload) now).id = p.id := by
  refine ⟨?_, ?_, ?_, ?_, ?_, ?_, ?_, rfl, rfl, rfl⟩
  · intro h; simp [Project.update, decodeUpdateRequest, h, JsonField.decodeOption]
  · intro h; simp [Project.update, decodeUpdateRequest, h, JsonField.decodeOption]
  · intro h; simp [Project.update, decodeUpdateRequest, h, JsonField.decodeOption]
  · intro h; simp [Project.update, decodeUpdateRequest, h, JsonField.decodeOption]
  · intro r h; simp [Project.update, decodeUpdateRequest, h, JsonField.decodeOption]
  · intro h; simp [Project.update, decodeUpdateRequest, h, JsonField.decodeOption]
  · intro h; simp [Project.update, decodeUpdateRequest, h, JsonField.decodeOption]

/-- C7 witness: the amended theorem at a concrete project and payload — name
absent is retained, the present rating 3 overwrites, updated_at becomes 9. -/
theorem c7_witness :
    (c7Project.update (decodeUpdateRequest c7RatingThreePayload) 9).name
        = c7Project.name ∧
    (c7Project.update (decodeUpdateRequest c7RatingThreePayload) 9).rating
        = some 3 ∧
    (c7Project.update (decodeUpdateRequest c7RatingThreePayload) 9).updated_at = 9 :=
  ⟨(c7_partial_update c7Project c7RatingThreePayload 9).1 rfl,
   (c7_partial_update c7Project c7RatingThreePayload 9).2.2.2.2.1 3 rfl,
   (c7_partial_update c7Project c7RatingThreePayload 9).2.2.2.2.2.2.2.1⟩

/-! ## Claim C2 -/

/-- C2 counterexample: with a malformed user_id the handler drops the user
filter instead of matching nothing — the single stored project (which has no
user association at all) is counted and returned, so total_items is 1, not 0,
and the page is non-empty. -/
theorem c2_counterexample :
    c2Params.user_id = some "not-a-uuid" ∧
    parseUuidString "not-a-uuid" = none ∧
    countProjects c2Db c2Params = 1 ∧
    listProjectsPage c2Db c2Params = [c2Project] ∧
    (1 : Nat) ≠ 0 := by
  refine ⟨rfl, by decide, by decide, by decide, by decide⟩

/-- C2 (amended): a present but malformed user_id does not error; the user_id
filter is silently dropped, and the request behaves exactly as if user_id had
been omitted — same total_items and same page — rather than excluding every
project. -/
theorem c2_invalid_user_id_dropped (db : Db) (params : ListQueryParams) (s : String)
    (hs : params.user_id = some s) (hp : parseUuidString s = none) :
    countProjects db params = countProjects db { params with user_id := none } ∧
    listProjectsPage db params = listProjectsPage db { params with user_id := none } ∧
    (listProjects db params).2.total_items
      = (listProjects db { params with user_id := none }).2.total_items := by
  have h1 : userUuidStr params = none := by
    simp [userUuidStr, hs, hp]
  have h2 : userUuidStr { params with user_id := none } = none := rfl
  have hm : ∀ p, matchesFilters db params p
      = matchesFilters db { params with user_id := none } p := by
    intro p
    simp only [matchesFilters, h1, h2]
  have hf : (db.projects.filter fun p => matchesFilters db params p)
      = db.projects.filter fun p => matchesFilters db { params with user_id := none } p :=
    List.filter_congr fun a _ => hm a
  refine ⟨?_, ?_, ?_⟩
  · simp only [countProjects, hf]
  · simp only [listProjectsPage, hf, ListQueryParams.sortField, ListQueryParams.sortOrder,
      ListQueryParams.offset, ListQueryParams.pageSizeEff, ListQueryParams.pageNum]
  · simp only [listProjects, countProjects, PaginationMetadata.new, hf]

/-- C2 witness: the amended theorem at the one-project store and the malformed
user_id "zzz" — the count equals the count of the same request without
user_id. -/
theorem c2_witness :
    (c2WitnessParams.user_id = some "zzz" ∧ parseUuidString "zzz" = none) ∧
    countProjects c2Db c2WitnessParams
      = countProjects c2Db { c2WitnessParams with user_id := none } :=
  ⟨⟨rfl, by decide⟩,
   (c2_invalid_user_id_dropped c2Db c2WitnessParams "zzz" rfl (by decide)).1⟩

/-! ## Claim C1 -/

/-- Totality of the lexicographic character comparison. -/
theorem charsLe_total : ∀ as bs : List Char, charsLe as bs = true ∨ charsLe bs as = true := by
  intro as
  induction as with
  | nil => intro bs; left; rfl
  | cons a as ih =>
    intro bs
    cases bs with
    | nil => right; rfl
    | cons b bs =>
      rcases lt_trichotomy a b with h | h | h
      · left; simp [charsLe, h]
      · subst h
        rcases ih bs with h2 | h2
        · left; simp [charsLe, h2]
        · right; simp [charsLe, h2]
      · right; simp [charsLe, h]

/-- Transitivity of the lexicographic character comparison. -/
theorem charsLe_trans :
    ∀ as bs cs : List Char,
      charsLe as bs = true → charsLe bs cs = true → charsLe as cs = true := by
  intro as
  induction as with
  | nil => intro bs cs h1 h2; rfl
  | cons a as ih =>
    intro bs cs h1 h2
    cases bs with
    | nil => simp [charsLe] at h1
    | cons b bs =>
      cases cs with
      | nil => simp [charsLe] at h2
      | cons c cs =>
        simp only [charsLe, Bool.or_eq_true, Bool.and_eq_true, decide_eq_true_eq,
          beq_iff_eq] at h1 h2 ⊢
        rcases h1 with h1 | ⟨h1e, h1r⟩
        · rcases h2 with h2 | ⟨h2e, h2r⟩
          · exact Or.inl (lt_trans h1 h2)
          · subst h2e; exact Or.inl h1
        · subst h1e
          rcases h2 with h2 | ⟨h2e, h2r⟩
          · exact Or.inl h2
          · subst h2e; exact Or.inr ⟨rfl, ih bs cs h1r h2r⟩

/-- The collapse fold over rows equals the fold over the extracted
(filterMap) payloads. -/
theorem foldl_collapse (f : JoinRow → Option β) (key : β → String) :
    ∀ (rows : List JoinRow) (acc : List β),
      rows.foldl (collapseStep f key) acc
        = (rows.filterMap f).foldl (insertFirstWins key) acc := by
  intro rows
  induction rows with
  | nil => intro acc; simp
  | cons r rs ih =>
    intro acc
    cases h : f r with
    | none => simp [List.filterMap_cons, h, ih, collapseStep]
    | some t => simp [List.filterMap_cons, h, ih, collapseStep]

/-- Folding entry-or-insert over a list builds exactly the keyed
first-occurrence-wins deduplication of the part not already keyed in the
accumulator. -/
theorem foldl_insertFirstWins (key : α → String) :
    ∀ (l acc : List α),
      l.foldl (insertFirstWins key) acc
        = acc ++ firstWinsDedup key
            (l.filter fun v => !(acc.any fun y => (key y = key v : Bool))) := by
  intro l
  induction l with
  | nil => intro acc; simp [firstWinsDedup]
  | cons x xs ih =>
    intro acc
    rw [List.foldl_cons]
    cases hacc : acc.any (fun y => (key y = key x : Bool)) with
    | true =>
      have hstep : insertFirstWins key acc x = acc := by
        simp [insertFirstWins, hacc]
      rw [hstep, ih acc]
      simp [List.filter_cons, hacc]
    | false =>
      have hstep : insertFirstWins key acc x = acc ++ [x] := by
        simp [insertFirstWins, hacc]
      rw [hstep, ih (acc ++ [x]), List.append_assoc]
      have harg : xs.filter (fun v => !((acc ++ [x]).any fun y => (key y = key v : Bool)))
          = (xs.filter fun v => !(acc.any fun y => (key y = key v : Bool))).filter
              (fun v => !(key v = key x : Bool)) := by
        rw [List.filter_filter]
        refine List.filter_congr ?_
        intro v hv
        by_cases h : key x = key v
        · simp [List.any_append, h, eq_comm]
        · simp [List.any_append, h, Ne.symm h]
      rw [harg]
      simp [List.filter_cons, hacc, firstWinsDedup]

/-- The technologies map content is the first-wins dedup by id of the row
payloads, in insertion order. -/
theorem techsInOrder_eq_dedup (rows : List JoinRow) :
    techsInOrder rows = firstWinsDedup Technology.id (rows.filterMap rowTech) := by
  rw [techsInOrder, foldl_collapse rowTech Technology.id rows [],
    foldl_insertFirstWins Technology.id (rows.filterMap rowTech) []]
  simp

/-- The users map content is the first-wins dedup by user id of the row
payloads, in insertion order. -/
theorem usersInOrder_eq_dedup (rows : List JoinRow) :
    usersInOrder rows
      = firstWinsDedup (fun w => w.user.id) (rows.filterMap rowUser) := by
  rw [usersInOrder, foldl_collapse rowUser (fun w => w.user.id) rows [],
    foldl_insertFirstWins (fun w => w.user.id) (rows.filterMap rowUser) []]
  simp

/-- C1 counterexample: the tie-break between equal names is NOT insertion
order.  Two technologies share the name X; the dedup map in insertion order
holds [T1, T2]; the HashMap may materialize its values in either order, and
materializing [T2, T1] (a permutation of the map content, hence a legal
execution) survives the stable name sort unchanged — the output tie order is
the materialization order, not the insertion order [T1, T2]. -/
theorem c1_counterexample :
    techsInOrder [c1Row c1Tech1, c1Row c1Tech2] = [c1Tech1, c1Tech2] ∧
    List.Perm [c1Tech2, c1Tech1] (techsInOrder [c1Row c1Tech1, c1Row c1Tech2]) ∧
    sortTechs [c1Tech2, c1Tech1] = [c1Tech2, c1Tech1] ∧
    c1Tech1.name = c1Tech2.name ∧
    c1Tech1.id ≠ c1Tech2.id ∧
    sortTechs [c1Tech2, c1Tech1] ≠ [c1Tech1, c1Tech2] := by
  decide

/-- C1 (amended): for every joined row set, and for every materialization
order of the two dedup maps (the source's HashMap yields an arbitrary order),
the collapser's technology list is sorted by name ascending and is a
permutation of the first-occurrence-wins dedup (keyed by technology id) of the
row payloads, and likewise for users keyed by user id; ties between equal
names appear in the unspecified map order, not necessarily insertion
order. -/
theorem c1_collapse (rows : List JoinRow) (mt : List Technology)
    (mu : List UserWithRole)
    (hmt : mt.Perm (techsInOrder rows)) (hmu : mu.Perm (usersInOrder rows)) :
    List.Sorted techLe (sortTechs mt) ∧
    (sortTechs mt).Perm (firstWinsDedup Technology.id (rows.filterMap rowTech)) ∧
    List.Sorted userLe (sortUsers mu) ∧
    (sortUsers mu).Perm
      (firstWinsDedup (fun w => w.user.id) (rows.filterMap rowUser)) := by
  haveI : IsTotal Technology techLe := ⟨fun a b => charsLe_total _ _⟩
  haveI : IsTrans Technology techLe := ⟨fun a b c => charsLe_trans _ _ _⟩
  haveI : IsTotal UserWithRole userLe := ⟨fun a b => charsLe_total _ _⟩
  haveI : IsTrans UserWithRole userLe := ⟨fun a b c => charsLe_trans _ _ _⟩
  refine ⟨List.sorted_insertionSort techLe mt, ?_,
    List.sorted_insertionSort userLe mu, ?_⟩
  · exact ((List.perm_insertionSort techLe mt).trans hmt).trans
      (by rw [← techsInOrder_eq_dedup])
  · exact ((List.perm_insertionSort userLe mu).trans hmu).trans
      (by rw [← usersInOrder_eq_dedup])

/-- C1 witness: the amended theorem at the two-row example with the maps
materialized in insertion order. -/
theorem c1_witness :
    ([c1Tech1, c1Tech2].Perm (techsInOrder [c1Row c1Tech1, c1Row c1Tech2]) ∧
      ([] : List UserWithRole).Perm (usersInOrder [c1Row c1Tech1, c1Row c1Tech2])) ∧
    (List.Sorted techLe (sortTechs [c1Tech1, c1Tech2]) ∧
      (sortTechs [c1Tech1, c1Tech2]).Perm
        (firstWinsDedup Technology.id
          ([c1Row c1Tech1, c1Row c1Tech2].filterMap rowTech)) ∧
      List.Sorted userLe (sortUsers ([] : List UserWithRole)) ∧
      (sortUsers ([] : List UserWithRole)).Perm
        (firstWinsDedup (fun w => w.user.id)
          ([c1Row c1Tech1, c1Row c1Tech2].filterMap rowUser))) :=
  ⟨⟨by decide, by decide⟩,
   c1_collapse [c1Row c1Tech1, c1Row c1Tech2] [c1Tech1, c1Tech2] []
     (by decide) (by decide)⟩

/-! ## Claim C3 -/

/-- A project with no matching association rows contributes exactly one
all-NULL-extension row to the join. -/
theorem projectJoinRows_no_assoc (db : Db) (p : Project)
    (hpt : db.project_technologies.filter (fun pt => pt.project_id == p.id) = [])
    (hpu : db.project_users.filter (fun pu => pu.project_id == p.id) = []) :
    projectJoinRows db p = [nullRow p] := by
  simp only [projectJoinRows, hpt, hpu]
  simp [nullRow]

/-- C3: get_project signals project-not-found exactly when the join returns
zero rows; and a stored project with zero technology and zero user
associations (and a well-formed id) is returned successfully with both
relation lists empty. -/
theorem c3_not_found_and_empty (db : Db) (pid : String) :
    (getProject db pid = Except.error (AppError.projectNotFound pid)
      ↔ joinRows db pid = []) ∧
    (∀ p ∈ db.projects, p.id = pid → isUuid pid = true →
      (∀ pt ∈ db.project_technologies, pt.project_id ≠ pid) →
      (∀ pu ∈ db.project_users, pu.project_id ≠ pid) →
      ∃ res, getProject db pid = Except.ok res ∧
        res.technologies = [] ∧ res.users = []) := by
  constructor
  · cases hrows : joinRows db pid with
    | nil => simp [getProject, hrows]
    | cons first rest =>
      simp only [getProject, hrows]
      constructor
      · intro h
        cases hp : parseUuidString first.project_id with
        | none => rw [hp] at h; simp at h
        | some v => rw [hp] at h; simp at h
      · intro h
        exact absurd h (List.cons_ne_nil first rest)
  · intro p hp hpid huuid hpt hpu
    have hptf : ∀ q : Project, q.id = pid →
        db.project_technologies.filter (fun pt => pt.project_id == q.id) = [] := by
      intro q hq
      rw [List.filter_eq_nil_iff]
      intro pt hmem
      simp [hq, hpt pt hmem]
    have hpuf : ∀ q : Project, q.id = pid →
        db.project_users.filter (fun pu => pu.project_id == q.id) = [] := by
      intro q hq
      rw [List.filter_eq_nil_iff]
      intro pu hmem
      simp [hq, hpu pu hmem]
    have hinner : ∀ q ∈ db.projects.filter (fun q => q.id == pid),
        projectJoinRows db q = [nullRow q] := by
      intro q hq
      have hqid : q.id = pid := by simpa using (List.mem_filter.mp hq).2
      exact projectJoinRows_no_assoc db q (hptf q hqid) (hpuf q hqid)
    have hraw : joinRowsRaw db pid
        = (db.projects.filter fun q => q.id == pid).map nullRow := by
      rw [joinRowsRaw, List.flatMap_congr hinner]
      exact (List.map_eq_bind nullRow _).symm
    have hmemrows : ∀ r ∈ joinRows db pid, ∃ q, q.id = pid ∧ r = nullRow q := by
      intro r hr
      have hr2 : r ∈ joinRowsRaw db pid :=
        (List.perm_insertionSort joinRowLe (joinRowsRaw db pid)).mem_iff.mp hr
      rw [hraw] at hr2
      obtain ⟨q, hq, rfl⟩ := List.mem_map.mp hr2
      exact ⟨q, by simpa using (List.mem_filter.mp hq).2, rfl⟩
    have hne : joinRows db pid ≠ [] := by
      intro h0
      simp only [joinRows, sortJoinRows] at h0
      have hperm := List.perm_insertionSort joinRowLe (joinRowsRaw db pid)
      rw [h0] at hperm
      have hraw0 := hperm.symm.eq_nil
      rw [hraw, List.map_eq_nil_iff] at hraw0
      have hpmem : p ∈ db.projects.filter (fun q => q.id == pid) :=
        List.mem_filter.mpr ⟨hp, by simp [hpid]⟩
      rw [hraw0] at hpmem
      exact absurd hpmem (List.not_mem_nil p)
    cases hrows : joinRows db pid with
    | nil => exact absurd hrows hne
    | cons first rest =>
      have hfirst : first ∈ joinRows db pid := by
        rw [hrows]; exact List.mem_cons_self _ _
      obtain ⟨q, hqid, hfeq⟩ := hmemrows first hfirst
      have hparse : parseUuidString first.project_id
          = some (canonicalizeUuid pid) := by
        rw [hfeq]
        simp [nullRow, hqid, parseUuidString, huuid]
      have halltech : techsInOrder (first :: rest) = [] := by
        rw [techsInOrder_eq_dedup, List.filterMap_eq_nil_iff.mpr, firstWinsDedup]
        intro r hr
        obtain ⟨q2, _, rfl⟩ := hmemrows r (by rw [hrows]; exact hr)
        rfl
      have halluser : usersInOrder (first :: rest) = [] := by
        rw [usersInOrder_eq_dedup, List.filterMap_eq_nil_iff.mpr, firstWinsDedup]
        intro r hr
        obtain ⟨q2, _, rfl⟩ := hmemrows r (by rw [hrows]; exact hr)
        rfl
      have hgp : getProject db pid = Except.ok
          (ProjectWithRelations.mk
            (Project.mk (canonicalizeUuid pid) first.project_name
              first.project_description first.repository_url first.language
              first.rating first.project_created_at first.project_updated_at)
            (sortTechs (techsInOrder (first :: rest)))
            (sortUsers (usersInOrder (first :: rest)))) := by
        simp only [getProject, hrows, hparse]
      refine ⟨_, hgp, ?_, ?_⟩
      · show sortTechs (techsInOrder (first :: rest)) = []
        rw [halltech]; rfl
      · show sortUsers (usersInOrder (first :: rest)) = []
        rw [halluser]; rfl

/-- C3 witness: the theorem at the one-project store with no associations —
the project is returned with two empty lists. -/
theorem c3_witness :
    (c3Project ∈ c3Db.projects ∧
      c3Project.id = "33333333-3333-3333-3333-333333333333" ∧
      isUuid "33333333-3333-3333-3333-333333333333" = true ∧
      (∀ pt ∈ c3Db.project_technologies,
        pt.project_id ≠ "33333333-3333-3333-3333-333333333333") ∧
      (∀ pu ∈ c3Db.project_users,
        pu.project_id ≠ "33333333-3333-3333-3333-333333333333")) ∧
    ∃ res, getProject c3Db "33333333-3333-3333-3333-333333333333" = Except.ok res ∧
      res.technologies = [] ∧ res.users = [] :=
  ⟨⟨by decide, rfl, by decide, by decide, by decide⟩,
   (c3_not_found_and_empty c3Db "33333333-3333-3333-3333-333333333333").2
     c3Project (by decide) rfl (by decide) (by decide) (by decide)⟩

/-! ## Claim C10 -/

/-- Replacing a binding makes it the one found. -/
theorem findTracker_setTracker_self (ip : IpAddr) (tr : RequestTracker)
    (l : List (IpAddr × RequestTracker)) :
    findTracker ip (setTracker ip tr l) = some tr := by
  induction l with
  | nil => simp [setTracker, findTracker]
  | cons e es ih =>
    by_cases h : e.1 = ip
    · simp [setTracker, findTracker, h]
    · simp [setTracker, findTracker, h, ih]

/-- A key absent from the key column is not found. -/
theorem findTracker_eq_none (ip : IpAddr) (l : List (IpAddr × RequestTracker))
    (h : ip ∉ l.map Prod.fst) : findTracker ip l = none := by
  induction l with
  | nil => rfl
  | cons e es ih =>
    simp only [List.map_cons, List.mem_cons] at h
    push_neg at h
    simp [findTracker, Ne.symm h.1, ih h.2]

/-- A found binding is a member of the association list. -/
theorem findTracker_mem (ip : IpAddr) (tr : RequestTracker)
    (l : List (IpAddr × RequestTracker)) (h : findTracker ip l = some tr) :
    (ip, tr) ∈ l := by
  induction l with
  | nil => simp [findTracker] at h
  | cons e es ih =>
    by_cases he : e.1 = ip
    · simp only [findTracker, if_pos he] at h
      obtain ⟨k, v⟩ := e
      obtain rfl : v = tr := Option.some.inj h
      obtain rfl : k = ip := he
      exact List.mem_cons_self _ _
    · simp only [findTracker, if_neg he] at h
      exact List.mem_cons_of_mem e (ih h)

/-- Lookup through a value filter, given distinct keys: the binding survives
iff it satisfies the predicate. -/
theorem findTracker_filter (ip : IpAddr) (P : IpAddr × RequestTracker → Bool)
    (l : List (IpAddr × RequestTracker)) (hn : (l.map Prod.fst).Nodup) :
    findTracker ip (l.filter P)
      = match findTracker ip l with
        | none => none
        | some tr => if P (ip, tr) then some tr else none := by
  induction l with
  | nil => rfl
  | cons e es ih =>
    obtain ⟨k, v⟩ := e
    simp only [List.map_cons, List.nodup_cons] at hn
    by_cases hk : k = ip
    · subst hk
      by_cases hP : P (k, v)
      · simp [List.filter_cons, hP, findTracker]
      · have hsub : List.Sublist ((es.filter P).map Prod.fst) (es.map Prod.fst) :=
          (List.filter_sublist es).map Prod.fst
        have hout : k ∉ (es.filter P).map Prod.fst := fun hmem => hn.1 (hsub.subset hmem)
        simp [List.filter_cons, hP, findTracker, findTracker_eq_none k _ hout]
    · by_cases hP : P (k, v)
      · simp [List.filter_cons, hP, findTracker, hk, ih hn.2]
      · simp [List.filter_cons, hP, findTracker, hk, ih hn.2]

/-- The retained-request count computed inside check_rate_limit equals the
number of recorded requests in the trailing one-second window, measured on
the pre-sweep state: the sweep only ever discards trackers idle for a full
minute, whose windows are necessarily empty. -/
theorem keptLength_eq_windowCount (ip : IpAddr) (now : ℤ) (st : RateLimiterState)
    (hkeys : (st.requests.map Prod.fst).Nodup)
    (hreq : ∀ e ∈ st.requests, ∀ t ∈ e.2.requests, t ≤ e.2.last_request) :
    (((findTracker ip (cleanupSweep now st).requests).getD
        { requests := [], last_request := now }).requests.filter
      fun t => now - secNs < t).length = windowCount ip now st := by
  unfold cleanupSweep windowCount
  by_cases hc : minuteNs < now - st.last_cleanup
  · simp only [if_pos hc]
    rw [findTracker_filter ip _ st.requests hkeys]
    cases hft : findTracker ip st.requests with
    | none => simp
    | some tr =>
      by_cases hP : now - tr.last_request < minuteNs
      · simp [hP]
      · have hmem : (ip, tr) ∈ st.requests := findTracker_mem ip tr st.requests hft
        have hempty : tr.requests.filter (fun t => now - secNs < t) = [] := by
          rw [List.filter_eq_nil_iff]
          intro t ht
          have h1 : t ≤ tr.last_request := hreq (ip, tr) hmem t ht
          simp only [secNs, minuteNs] at hP ⊢
          simp only [decide_eq_true_eq]
          omega
        simp [hP, hempty]
  · simp only [if_neg hc]
    cases hft : findTracker ip st.requests with
    | none => simp [hft]
    | some tr => simp [hft]

/-- C10: check_rate_limit admits a request exactly when strictly fewer than
burst_size requests from that ip were recorded in the trailing one-second
window, records the request (the new timestamp is in the stored tracker) when
it admits, and ignores the configured per_second value entirely.  The
hypotheses state the HashMap invariants: distinct keys, and no tracker holds
a timestamp newer than its last_request. -/
theorem c10_check_rate_limit (rl : RateLimiter) (ip : IpAddr) (now : ℤ)
    (st : RateLimiterState)
    (hkeys : (st.requests.map Prod.fst).Nodup)
    (hreq : ∀ e ∈ st.requests, ∀ t ∈ e.2.requests, t ≤ e.2.last_request) :
    ((checkRateLimit rl ip now st).1 = true ↔ windowCount ip now st < rl.burst_size) ∧
    ((checkRateLimit rl ip now st).1 = true →
      ∃ tr, findTracker ip (checkRateLimit rl ip now st).2.requests = some tr ∧
        now ∈ tr.requests) ∧
    (∀ ps1 ps2 : Nat,
      checkRateLimit { per_second := ps1, burst_size := rl.burst_size } ip now st
        = checkRateLimit { per_second := ps2, burst_size := rl.burst_size } ip now st) := by
  have hkey := keptLength_eq_windowCount ip now st hkeys hreq
  refine ⟨?_, ?_, fun ps1 ps2 => rfl⟩
  · by_cases hlt : (((findTracker ip (cleanupSweep now st).requests).getD
        { requests := [], last_request := now }).requests.filter
        fun t => now - secNs < t).length < rl.burst_size
    · have hw : windowCount ip now st < rl.burst_size := hkey ▸ hlt
      simp [checkRateLimit, hlt, hw]
    · have hw : ¬ windowCount ip now st < rl.burst_size := hkey ▸ hlt
      simp [checkRateLimit, hlt, hw]
  · intro h
    by_cases hlt : (((findTracker ip (cleanupSweep now st).requests).getD
        { requests := [], last_request := now }).requests.filter
        fun t => now - secNs < t).length < rl.burst_size
    · simp only [checkRateLimit, hlt, if_true]
      exact ⟨_, findTracker_setTracker_self ip _ _, by simp⟩
    · simp [checkRateLimit, hlt] at h

/-- C10 witness: the theorem at a two-burst limiter with one request 400ns
old — the request is admitted and the window count is 1 < 2. -/
theorem c10_witness :
    ((c10State.requests.map Prod.fst).Nodup ∧
      ∀ e ∈ c10State.requests, ∀ t ∈ e.2.requests, t ≤ e.2.last_request) ∧
    ((checkRateLimit c10Limiter "1.2.3.4" 500 c10State).1 = true ↔
      windowCount "1.2.3.4" 500 c10State < c10Limiter.burst_size) :=
  ⟨⟨by decide, by decide⟩,
   (c10_check_rate_limit c10Limiter "1.2.3.4" 500 c10State (by decide) (by decide)).1⟩

/-! ## Claims C6, C8 and C9: the write path -/

/-- Inversion of a successful create: the project_users table gains exactly
the positional-role rows for the supplied user ids. -/
theorem createProject_ok_users (db : Db) (req : CreateProjectRequest)
    (pid : String) (now : ℤ) (db2 : Db)
    (hok : createProject db req pid now = Except.ok db2) :
    db2.project_users = db.project_users ++ (req.user_ids.getD []).enum.map
      (fun iu => ProjectUserRow.mk pid iu.2 (roleFor iu.1).asStr now) := by
  unfold createProject at hok
  cases hv : validateCreate req with
  | false => rw [hv] at hok; simp at hok
  | true =>
    rw [hv] at hok
    cases hft : firstMissing (existsTech db) (req.technology_ids.getD []) with
    | some t => rw [hft] at hok; simp at hok
    | none =>
      rw [hft] at hok
      cases hfu : firstMissing (existsUser db) (req.user_ids.getD []) with
      | some u => rw [hfu] at hok; simp at hok
      | none =>
        rw [hfu] at hok
        simp only [Bool.not_true, Bool.false_eq_true, if_false, Except.ok.injEq] at hok
        subst hok
        rfl

/-- Inversion of a successful update: each association table is either
untouched (absent list) or wholesale-replaced (present list), and the users
get positional roles. -/
theorem updateProject_ok_tables (db : Db) (pid : String)
    (upd : UpdateProjectRequest) (now : ℤ) (db2 : Db)
    (hok : updateProject db pid upd now = Except.ok db2) :
    (db2.project_technologies = match upd.technology_ids with
      | none => db.project_technologies
      | some tids =>
        db.project_technologies.filter (fun pt => !(pt.project_id == pid))
          ++ tids.map fun tid => ProjectTechnologyRow.mk pid tid now) ∧
    (db2.project_users = match upd.user_ids with
      | none => db.project_users
      | some uids =>
        db.project_users.filter (fun pu => !(pu.project_id == pid))
          ++ uids.enum.map
            fun iu => ProjectUserRow.mk pid iu.2 (roleFor iu.1).asStr now) := by
  unfold updateProject at hok
  cases hv : validateUpdate upd with
  | false => rw [hv] at hok; simp at hok
  | true =>
    rw [hv] at hok
    cases hft : firstMissing (existsTech db) (upd.technology_ids.getD []) with
    | some t => rw [hft] at hok; simp at hok
    | none =>
      rw [hft] at hok
      cases hfu : firstMissing (existsUser db) (upd.user_ids.getD []) with
      | some u => rw [hfu] at hok; simp at hok
      | none =>
        rw [hfu] at hok
        cases hfind : db.projects.find? (fun p => p.id == pid) with
        | none => rw [hfind] at hok; simp at hok
        | some project =>
          rw [hfind] at hok
          simp only [Bool.not_true, Bool.false_eq_true, if_false,
            Except.ok.injEq] at hok
          subst hok
          cases hti : upd.technology_ids with
          | none =>
            cases hui : upd.user_ids with
            | none => simp [hti, hui]
            | some uids => simp [hti, hui]
          | some tids =>
            cases hui : upd.user_ids with
            | none => simp [hti, hui]
            | some uids => simp [hti, hui]

/-- C6: a present technology_ids list (even empty) replaces the project's
technology associations exactly, leaving other projects' rows alone; an
absent list leaves the whole table untouched; likewise for user_ids. -/
theorem c6_assoc_replacement (db : Db) (pid : String)
    (upd : UpdateProjectRequest) (now : ℤ) (db2 : Db)
    (hok : updateProject db pid upd now = Except.ok db2) :
    (∀ tids, upd.technology_ids = some tids →
      ((db2.project_technologies.filter fun pt => pt.project_id == pid).map
          (fun pt => pt.technology_id) = tids ∧
        db2.project_technologies.filter (fun pt => !(pt.project_id == pid))
          = db.project_technologies.filter fun pt => !(pt.project_id == pid))) ∧
    (upd.technology_ids = none →
      db2.project_technologies = db.project_technologies) ∧
    (∀ uids, upd.user_ids = some uids →
      ((db2.project_users.filter fun pu => pu.project_id == pid).map
          (fun pu => pu.user_id) = uids ∧
        db2.project_users.filter (fun pu => !(pu.project_id == pid))
          = db.project_users.filter fun pu => !(pu.project_id == pid))) ∧
    (upd.user_ids = none → db2.project_users = db.project_users) := by
  obtain ⟨hpt, hpu⟩ := updateProject_ok_tables db pid upd now db2 hok
  refine ⟨?_, ?_, ?_, ?_⟩
  · intro tids h
    simp only [h] at hpt
    rw [hpt]
    constructor
    · simp [List.filter_append, List.filter_filter, List.map_filter,
        Function.comp_def, List.map_map]
    · simp [List.filter_append, List.filter_filter, List.map_filter,
        Function.comp_def]
  · intro h; simp only [h] at hpt; exact hpt
  · intro uids h
    simp only [h] at hpu
    rw [hpu]
    constructor
    · simp [List.filter_append, List.filter_filter, List.map_filter,
        Function.comp_def, List.map_map, List.enum_map_snd]
    · simp [List.filter_append, List.filter_filter, List.map_filter,
        Function.comp_def]
  · intro h; simp only [h] at hpu; exact hpu

/-- C6 witness: replacing [t0] by [t1] on project p1 while leaving user
associations untouched. -/
theorem c6_witness :
    updateProject c6Db "p1" c6Upd 7 = Except.ok c6DbAfter ∧
    (c6DbAfter.project_technologies.filter fun pt => pt.project_id == "p1").map
        (fun pt => pt.technology_id) = ["t1"] ∧
    c6DbAfter.project_users = c6Db.project_users :=
  ⟨by decide,
   (((c6_assoc_replacement c6Db "p1" c6Upd 7 c6DbAfter (by decide)).1)
      ["t1"] rfl).1,
   ((c6_assoc_replacement c6Db "p1" c6Upd 7 c6DbAfter (by decide)).2.2.2) rfl⟩

/-- firstMissing finds nothing iff every id passes the probe. -/
theorem firstMissing_eq_none_iff (p : String → Bool) (l : List String) :
    firstMissing p l = none ↔ ∀ x ∈ l, p x = true := by
  induction l with
  | nil => simp [firstMissing]
  | cons x xs ih =>
    cases hx : p x with
    | true => simp [firstMissing, hx, ih]
    | false => simp [firstMissing, hx]

/-- firstMissing returns the first failing id. -/
theorem firstMissing_first_false (p : String → Bool) :
    ∀ (l : List String) (i : Nat) (hi : i < l.length),
      p (l.get ⟨i, hi⟩) = false →
      (∀ j (hj : j < i), p (l.get ⟨j, lt_trans hj hi⟩) = true) →
      firstMissing p l = some (l.get ⟨i, hi⟩) := by
  intro l
  induction l with
  | nil =>
    intro i hi _ _
    exact absurd hi (by simp)
  | cons x xs ih =>
    intro i hi hfail hpre
    cases i with
    | zero => simp [firstMissing, List.get] at hfail ⊢; simp [hfail]
    | succ i =>
      have hx : p x = true := hpre 0 (Nat.succ_pos i)
      simp only [firstMissing, hx, if_true]
      exact ih i (Nat.lt_of_succ_lt_succ hi) hfail
        (fun j hj => hpre (j + 1) (Nat.succ_lt_succ hj))

/-- C8: with a valid payload, the first missing technology id (all ids before
it existing) aborts the create with a not-found error naming that id,
whatever the user list contains — technology ids are checked before user
ids — and when every technology id exists, the first missing user id aborts
naming it.  An aborted create performs no insert: in this sequential
embedding the error return leaves the store value unchanged, mirroring the
source, where both check loops precede every INSERT. -/
theorem c8_create_validation_order (db : Db) (req : CreateProjectRequest)
    (pid : String) (now : ℤ) (hv : validateCreate req = true) :
    (∀ tids, req.technology_ids = some tids →
      ∀ i (hi : i < tids.length),
        existsTech db (tids.get ⟨i, hi⟩) = false →
        (∀ j (hj : j < i), existsTech db (tids.get ⟨j, lt_trans hj hi⟩) = true) →
        createProject db req pid now
          = Except.error (AppError.technologyNotFound (tids.get ⟨i, hi⟩))) ∧
    ((∀ tid ∈ req.technology_ids.getD [], existsTech db tid = true) →
      ∀ uids, req.user_ids = some uids →
      ∀ i (hi : i < uids.length),
        existsUser db (uids.get ⟨i, hi⟩) = false →
        (∀ j (hj : j < i), existsUser db (uids.get ⟨j, lt_trans hj hi⟩) = true) →
        createProject db req pid now
          = Except.error (AppError.userNotFound (uids.get ⟨i, hi⟩))) := by
  constructor
  · intro tids h i hi hfail hpre
    have hfm : firstMissing (existsTech db) (req.technology_ids.getD [])
        = some (tids.get ⟨i, hi⟩) := by
      simp only [h, Option.getD_some]
      exact firstMissing_first_false _ tids i hi hfail hpre
    simp [createProject, hv, hfm]
  · intro hall uids h i hi hfail hpre
    have ht : firstMissing (existsTech db) (req.technology_ids.getD []) = none :=
      (firstMissing_eq_none_iff _ _).mpr hall
    have hfm : firstMissing (existsUser db) (req.user_ids.getD [])
        = some (uids.get ⟨i, hi⟩) := by
      simp only [h, Option.getD_some]
      exact firstMissing_first_false _ uids i hi hfail hpre
    simp [createProject, hv, ht, hfm]

/-- C8 witness: creating against a store that knows t1 but not t2, with a
user list containing a missing u9 — the abort names t2 (a technology),
showing technologies are checked first. -/
theorem c8_witness :
    (validateCreate c8Req = true ∧ c8Req.technology_ids = some ["t1", "t2"] ∧
      existsTech c8Db "t2" = false ∧ existsTech c8Db "t1" = true ∧
      existsUser c8Db "u9" = false) ∧
    createProject c8Db c8Req "p9" 3
      = Except.error (AppError.technologyNotFound "t2") :=
  by
  refine ⟨⟨by decide, rfl, by decide, by decide, by decide⟩, ?_⟩
  have hv : validateCreate c8Req = true := by decide
  have h := (c8_create_validation_order c8Db c8Req "p9" 3 hv).1 ["t1", "t2"] rfl 1
  have hi : (1 : Nat) < (["t1", "t2"] : List String).length := by decide
  have hfail : existsTech c8Db "t2" = false := by decide
  have hpre : ∀ j (hj : j < 1),
      existsTech c8Db ((["t1", "t2"] : List String).get ⟨j, lt_trans hj hi⟩) = true := by
    intro j hj
    have hj0 : j = 0 := by omega
    subst hj0
    exact (by decide : existsTech c8Db "t1" = true)
  exact h hi hfail hpre

/-- Rows enumerated from any positive start index all get the contributor
role. -/
theorem enumFrom_contributor_map (pid : String) (now : ℤ) :
    ∀ (l : List String) (n : Nat), 1 ≤ n →
      ((l.enumFrom n).map fun iu => ProjectUserRow.mk pid iu.2 (roleFor iu.1).asStr now)
        = l.map fun uid =>
            ProjectUserRow.mk pid uid (UserRole.asStr UserRole.contributor) now := by
  intro l
  induction l with
  | nil => intro n _; rfl
  | cons x xs ih =>
    intro n hn
    have hn0 : n ≠ 0 := by omega
    simp only [List.enumFrom, List.map_cons]
    rw [ih (n + 1) (by omega)]
    simp [roleFor, hn0]

/-- Enumerating a non-empty user list yields the owner row at the head and
contributor rows for the tail. -/
theorem enum_roles_cons (pid : String) (now : ℤ) (u0 : String)
    (urest : List String) :
    ((u0 :: urest).enum.map fun iu =>
        ProjectUserRow.mk pid iu.2 (roleFor iu.1).asStr now)
      = ProjectUserRow.mk pid u0 (UserRole.asStr UserRole.owner) now
        :: urest.map fun uid =>
            ProjectUserRow.mk pid uid (UserRole.asStr UserRole.contributor) now := by
  rw [show (u0 :: urest).enum = (0, u0) :: urest.enumFrom 1 from rfl]
  simp only [List.map_cons]
  rw [enumFrom_contributor_map pid now urest 1 (le_refl 1)]
  simp [roleFor]

/-- C9: whenever a create or an update succeeds with a non-empty user id
list, the inserted association rows are: the first listed user id with role
owner, and every other listed id (in order) with role contributor. -/
theorem c9_user_roles (db : Db) (pid : String) (now : ℤ) :
    (∀ (req : CreateProjectRequest) (db2 : Db) (u0 : String) (urest : List String),
      req.user_ids = some (u0 :: urest) →
      createProject db req pid now = Except.ok db2 →
      db2.project_users = db.project_users
        ++ ProjectUserRow.mk pid u0 (UserRole.asStr UserRole.owner) now
          :: urest.map (fun uid =>
              ProjectUserRow.mk pid uid (UserRole.asStr UserRole.contributor) now)) ∧
    (∀ (upd : UpdateProjectRequest) (db2 : Db) (u0 : String) (urest : List String),
      upd.user_ids = some (u0 :: urest) →
      updateProject db pid upd now = Except.ok db2 →
      db2.project_users
        = db.project_users.filter (fun pu => !(pu.project_id == pid))
          ++ ProjectUserRow.mk pid u0 (UserRole.asStr UserRole.owner) now
            :: urest.map (fun uid =>
                ProjectUserRow.mk pid uid (UserRole.asStr UserRole.contributor) now)) := by
  constructor
  · intro req db2 u0 urest h hok
    have hu := createProject_ok_users db req pid now db2 hok
    simp only [h, Option.getD_some] at hu
    rw [hu, enum_roles_cons]
  · intro upd db2 u0 urest h hok
    have hu := (updateProject_ok_tables db pid upd now db2 hok).2
    simp only [h] at hu
    rw [hu, enum_roles_cons]

/-- C9 witness: creating with users [u1, u2] stores u1 as owner and u2 as
contributor. -/
theorem c9_witness :
    (c9Req.user_ids = some ["u1", "u2"] ∧
      createProject c9Db c9Req "p9" 3 = Except.ok c9DbAfter) ∧
    c9DbAfter.project_users = c9Db.project_users
      ++ ProjectUserRow.mk "p9" "u1" (UserRole.asStr UserRole.owner) 3
        :: ["u2"].map (fun uid =>
            ProjectUserRow.mk "p9" uid (UserRole.asStr UserRole.contributor) 3) :=
  ⟨⟨rfl, by decide⟩,
   (c9_user_roles c9Db "p9" 3).1 c9Req c9DbAfter "u1" ["u2"] rfl (by decide)⟩

end ProyectsApi
